import Mathlib

/-!
Shallow embedding of `examples/python/visualization/tensorboard_plugin/demo_pytorch.py`
(Open3D TensorBoard-plugin demo): the batched, step-indexed 3D-scene summary
construction loops `small_scale`, `property_reference`, `large_scale`, and the
material assembly of `with_material`.

Modelling choices:
- A legacy `TriangleMesh` is modelled by the four per-mesh attributes the demos
  touch: vertex positions, vertex normals, per-vertex colors and triangle
  indices.  The external mesh constructors (`create_box`, `create_cylinder`,
  `create_moebius`) and `compute_vertex_normals` are not in this excerpt; the
  loops receive the already-constructed, normal-computed meshes as parameters
  (for `large_scale`, as per-resolution factories that may fail, since the
  external provider may raise).
- `paint_uniform_color` paints every vertex with the given color (it resizes
  the color array to the vertex count and fills it), leaving positions,
  normals and triangles untouched.
- Python list indexing `xs[i]` is fallible (`IndexError`); it is modelled by
  `listIdx` returning `Except Err`.  Python exceptions propagating out of a
  demo function are modelled by each loop returning the list of frames emitted
  so far (the writer's persisted side effects) together with an optional error
  (`RunResult`): `(log, none)` is a normal return, `(log, some e)` is a raise
  after having emitted `log`.
- Color values are exact rationals.  `large_scale` computes its palette with
  floating-point `np.sin`/`np.cos`; the sequencing loop consumes those values
  opaquely, so the loop is modelled over an opaque (fallible) color schedule
  parameter, while the exact real-valued schedule formula of lines 95-97 is
  modelled separately as `color_schedule` over `ℝ`.
- The batch-building inner loop of `large_scale` (lines 114-118) mutates a
  Python heap: `copy.deepcopy` allocates a fresh object and
  `cylinder_list[b].paint_uniform_color(...)` mutates in place through a
  reference.  This is modelled by an explicit store (`Store`) of meshes with
  allocation (`alloc`) and in-place update (`storePaint`), so that aliasing
  and deep-copy isolation are expressible.
-/

set_option autoImplicit false

namespace Demo

/-- An exact 3-component value (RGB color, vertex position or normal). -/
abbrev V3 := ℚ × ℚ × ℚ

/-- A triangle: three vertex indices. -/
abbrev T3 := ℕ × ℕ × ℕ

/-- The slice of a legacy `open3d.geometry.TriangleMesh` the demos use. -/
structure Mesh where
  positions : List V3
  normals : List V3
  colors : List V3
  triangles : List T3
deriving DecidableEq, Repr, Inhabited

/-- `TriangleMesh.paint_uniform_color`: paints every vertex with color `c`
(the color array is resized to the vertex count and filled with `c`);
positions, normals and triangle indices are untouched. -/
def paint_uniform_color (m : Mesh) (c : V3) : Mesh :=
  { m with colors := List.replicate m.positions.length c }

/-- A value stored under one key of a summary dict.  Python is dynamically
typed here: `to_dict_batch` stores a batched array (`concrete`), while
`property_reference` overwrites the entry with the plain integer `0`
(`intVal 0`), the property-reuse sentinel. -/
inductive PropVal (α : Type) where
  | concrete : α → PropVal α
  | intVal : ℤ → PropVal α
deriving DecidableEq, Repr

instance (α : Type) : Inhabited (PropVal α) := ⟨.intVal 0⟩

/-- The reuse marker: the plain integer `0` (demo lines 75-76, 81-82). -/
def reuseMarker {α : Type} : PropVal α := .intVal 0

/-- The dict produced by `to_dict_batch` and handed to `writer.add_3d`:
one batched entry per recognized geometry key (the demos use these four). -/
structure SummaryDict where
  vertex_positions : PropVal (List (List V3))
  vertex_normals : PropVal (List (List V3))
  vertex_colors : PropVal (List (List V3))
  triangle_indices : PropVal (List (List T3))
deriving DecidableEq, Repr, Inhabited

/-- `to_dict_batch(meshes)`: batches the attribute arrays of the given
geometries into one dict (one list entry per batch instance).  The data is
copied out of the meshes: later mutation of a mesh does not alter the dict. -/
def to_dict_batch (ms : List Mesh) : SummaryDict where
  vertex_positions := .concrete (ms.map Mesh.positions)
  vertex_normals := .concrete (ms.map Mesh.normals)
  vertex_colors := .concrete (ms.map Mesh.colors)
  triangle_indices := .concrete (ms.map Mesh.triangles)

/-- A propagated Python exception, identified by its kind. -/
structure Err where
  kind : String
deriving DecidableEq, Repr

/-- One `writer.add_3d(tag, data, step, max_outputs)` call recorded by the
sink. -/
structure Emit where
  tag : String
  data : SummaryDict
  step : ℕ
  max_outputs : Option ℕ
deriving DecidableEq, Repr, Inhabited

/-- Result of one demo invocation: the frames emitted (in order) and the
exception that aborted the run, if any. -/
abbrev RunResult := List Emit × Option Err

/-- Python list indexing `xs[i]`: raises `IndexError` when out of bounds. -/
def listIdx {α : Type} (xs : List α) (i : ℕ) : Except Err α :=
  match xs.get? i with
  | some a => .ok a
  | none => .error ⟨"IndexError"⟩

/-- The fixed three-color palette of `small_scale` and `property_reference`
(line 49 / line 70): red, green, blue. -/
def colors3 : List V3 := [(1, 0, 0), (0, 1, 0), (0, 0, 1)]

/-- Loop body of `small_scale` (lines 50-54), iterated over the remaining
steps.  The cube and cylinder meshes are mutated in place across iterations;
the emitted log grows by two frames per step (cube first, then cylinder). -/
def small_scale_go (cube cylinder : Mesh) (log : List Emit) :
    List ℕ → RunResult
  | [] => (log, none)
  | step :: rest =>
    match listIdx colors3 step with
    | .error e => (log, some e)
    | .ok c =>
      let cube := paint_uniform_color cube c
      let log := log ++ [⟨"cube", to_dict_batch [cube], step, none⟩]
      match listIdx colors3 step with
      | .error e => (log, some e)
      | .ok c2 =>
        let cylinder := paint_uniform_color cylinder c2
        let log := log ++ [⟨"cylinder", to_dict_batch [cylinder], step, none⟩]
        small_scale_go cube cylinder log rest

/-- `small_scale` (lines 37-54): paints the (externally constructed,
normal-computed) cube and cylinder with `colors[step]` for each
`step ∈ range 3` and emits each as a single-instance batch. -/
def small_scale (cube cylinder : Mesh) : RunResult :=
  small_scale_go cube cylinder [] (List.range 3)

/-- Substitution applied by `property_reference` at `step > 0`
(lines 75-76 and 81-82): both `vertex_positions` and `vertex_normals` are
overwritten with the reuse marker `0`. -/
def markReused (d : SummaryDict) : SummaryDict :=
  { d with vertex_positions := reuseMarker, vertex_normals := reuseMarker }

/-- Loop body of `property_reference` (lines 71-83): like `small_scale`, but
for `step > 0` the positions/normals entries of each summary are replaced by
the reuse marker before the frame is handed to the sink. -/
def property_reference_go (cube cylinder : Mesh) (log : List Emit) :
    List ℕ → RunResult
  | [] => (log, none)
  | step :: rest =>
    match listIdx colors3 step with
    | .error e => (log, some e)
    | .ok c =>
      let cube := paint_uniform_color cube c
      let cube_summary := to_dict_batch [cube]
      let cube_summary := if step > 0 then markReused cube_summary else cube_summary
      let log := log ++ [⟨"cube", cube_summary, step, none⟩]
      match listIdx colors3 step with
      | .error e => (log, some e)
      | .ok c2 =>
        let cylinder := paint_uniform_color cylinder c2
        let cylinder_summary := to_dict_batch [cylinder]
        let cylinder_summary :=
          if step > 0 then markReused cylinder_summary else cylinder_summary
        let log := log ++ [⟨"cylinder", cylinder_summary, step, none⟩]
        property_reference_go cube cylinder log rest

/-- `property_reference` (lines 57-83): same loop as `small_scale`, but does
not restore `vertex_positions` / `vertex_normals` after step 0 — they are
replaced by the reuse marker. -/
def property_reference (cube cylinder : Mesh) : RunResult :=
  property_reference_go cube cylinder [] (List.range 3)

/-! ### `large_scale` (lines 86-126)

The external constructors `create_cylinder` / `create_moebius` (composed with
`compute_vertex_normals`) are passed in as fallible factories from the step's
resolution; the color schedule is passed in as a fallible function of
`(batch_index, batch_size)` (its concrete floating-point formula is modelled
exactly over `ℝ` as `color_schedule` below). -/

/-- The Python heap slice holding the batch instances of one step: a mesh
object per allocated reference (a reference is an index into the store). -/
abbrev Store := List Mesh

/-- Allocation (`copy.deepcopy` makes a fresh, independent object): appends
the mesh and returns its fresh reference. -/
def alloc (s : Store) (m : Mesh) : Store × ℕ := (s ++ [m], s.length)

/-- Dereference: the mesh object a reference points to. -/
def storeGet (s : Store) (r : ℕ) : Mesh := s.getD r default

/-- In-place `paint_uniform_color` through a reference: only the object at
`r` is replaced (by its painted version); every other object is untouched. -/
def storePaint (s : Store) (r : ℕ) (c : V3) : Store :=
  s.set r (paint_uniform_color (storeGet s r) c)

/-- One iteration of the batch-building loop (lines 114-118), for batch index
`b`: append a deep copy of the cylinder base and paint `cylinder_list[b]`
with `colors[b]`, then the same for the moebius base. -/
def batchStep (cylinderBase moebiusBase : Mesh) (colors : List V3)
    (st : Store × List ℕ × List ℕ) (b : ℕ) :
    Except Err (Store × List ℕ × List ℕ) := do
  let (s, cylinder_list, moebius_list) := st
  let (s, r1) := alloc s cylinderBase
  let cylinder_list := cylinder_list ++ [r1]
  let rb ← listIdx cylinder_list b
  let cb ← listIdx colors b
  let s := storePaint s rb cb
  let (s, r2) := alloc s moebiusBase
  let moebius_list := moebius_list ++ [r2]
  let rb2 ← listIdx moebius_list b
  let cb2 ← listIdx colors b
  let s := storePaint s rb2 cb2
  pure (s, cylinder_list, moebius_list)

/-- The batch-building loop over the remaining batch indices. -/
def batchGo (cylinderBase moebiusBase : Mesh) (colors : List V3)
    (st : Store × List ℕ × List ℕ) :
    List ℕ → Except Err (Store × List ℕ × List ℕ)
  | [] => pure st
  | b :: rest => do
    let st ← batchStep cylinderBase moebiusBase colors st b
    batchGo cylinderBase moebiusBase colors st rest

/-- Step loop of `large_scale` (lines 98-126): per step, build the two base
meshes at `resolution = base_resolution * (step + 1)` via the external
factories, build `batch_size` painted copies of each, and emit one frame per
track (`cylinder` first, then `moebius`), each with
`max_outputs = batch_size`.  A raise aborts the remaining steps, keeping the
frames already emitted. -/
def large_scale_go (fcylinder fmoebius : ℕ → Except Err Mesh)
    (base_resolution batch_size : ℕ) (colors : List V3) (log : List Emit) :
    List ℕ → RunResult
  | [] => (log, none)
  | step :: rest =>
    let resolution := base_resolution * (step + 1)
    match fcylinder resolution with
    | .error e => (log, some e)
    | .ok cylinder =>
      match fmoebius resolution with
      | .error e => (log, some e)
      | .ok moebius =>
        match batchGo cylinder moebius colors ([], [], []) (List.range batch_size) with
        | .error e => (log, some e)
        | .ok (s, cylinder_list, moebius_list) =>
          let log := log ++
            [⟨"cylinder", to_dict_batch (cylinder_list.map (storeGet s)), step,
              some batch_size⟩,
             ⟨"moebius", to_dict_batch (moebius_list.map (storeGet s)), step,
              some batch_size⟩]
          large_scale_go fcylinder fmoebius base_resolution batch_size colors log rest

/-- Palette construction of `large_scale` (lines 94-97): one color per batch
index `k ∈ range batch_size`, appended in order; a raise in the schedule
aborts the construction. -/
def mkColorsGo (sch : ℕ → ℕ → Except Err V3) (batch_size : ℕ)
    (colors : List V3) : List ℕ → Except Err (List V3)
  | [] => pure colors
  | k :: rest =>
    match sch k batch_size with
    | .error e => .error e
    | .ok c => mkColorsGo sch batch_size (colors ++ [c]) rest

/-- The palette `colors` of `large_scale` lines 94-97. -/
def mkColors (sch : ℕ → ℕ → Except Err V3) (batch_size : ℕ) :
    Except Err (List V3) :=
  mkColorsGo sch batch_size [] (List.range batch_size)

/-- `large_scale` (lines 86-126): precompute the palette, then run the step
loop over `range n_steps`.  A raise during palette construction aborts before
any frame is emitted. -/
def large_scale (fcylinder fmoebius : ℕ → Except Err Mesh)
    (sch : ℕ → ℕ → Except Err V3)
    (n_steps batch_size base_resolution : ℕ) : RunResult :=
  match mkColors sch batch_size with
  | .error e => ([], some e)
  | .ok colors =>
    large_scale_go fcylinder fmoebius base_resolution batch_size colors []
      (List.range n_steps)

/-- The exact real-valued color schedule of `large_scale` lines 95-97:
`t = k·π/batch_size`, color `((1+sin t)/2, (1+cos t)/2, t/π)` (the Python
code evaluates this in floating point via `np.sin`/`np.cos`). -/
noncomputable def color_schedule (k batch_size : ℕ) : ℝ × ℝ × ℝ :=
  let t : ℝ := (k : ℝ) * Real.pi / (batch_size : ℝ)
  ((1 + Real.sin t) / 2, (1 + Real.cos t) / 2, t / Real.pi)

/-! ### Sink-side behavior modelled from the spec

The summary writer (`writer.add_3d`) is part of the Open3D repository's
tensorboard plugin but not of this excerpt; its `max_outputs` truncation and
its reuse-marker resolution/baseline bookkeeping are modelled from the spec. -/

/-- Number of batch instances carried by a summary entry (a marker carries
none of its own). -/
def propBatchLen {α : Type} : PropVal (List α) → ℕ
  | .concrete l => l.length
  | .intVal _ => 0

/-- Number of geometry instances in a frame's batch (instances are batched in
`vertex_positions`). -/
def batchLen (d : SummaryDict) : ℕ := propBatchLen d.vertex_positions

/-- Modelled from the spec: the sink emits at most `max_outputs` batch
elements (`max_outputs` is "an optional cap on how many batch elements are
actually emitted (truncation, not an error)"). -/
def emitted_instances (e : Emit) : ℕ :=
  match e.max_outputs with
  | some m => min (batchLen e.data) m
  | none => batchLen e.data

/-- Association-list lookup (Python `dict` access by key). -/
def lookupKey {α : Type} : List (String × α) → String → Option α
  | [], _ => none
  | (k, v) :: rest, key => if k = key then some v else lookupKey rest key

/-- Baseline store: per track, the concrete positions and normals recorded at
step 0 for later reuse-resolution. -/
abbrev Baseline := List (String × (List (List V3) × List (List V3)))

/-- Modelled from the spec: `apply_property_reuse(frame, step,
last_full_values)` of the sink-side reuse machinery (not in this excerpt).
For `step == 0` it returns the frame unchanged and records its concrete
positions/normals under the track name; for `step > 0` it replaces both
properties by the reuse marker, provided a baseline was recorded for the
track — otherwise it raises `MissingBaselineError` (a marker with no prior
concrete value would be unresolvable). -/
def apply_property_reuse (track : String) (frame : SummaryDict) (step : ℕ)
    (last_full_values : Baseline) : Except Err (SummaryDict × Baseline) :=
  if step = 0 then
    match frame.vertex_positions, frame.vertex_normals with
    | .concrete p, .concrete n =>
      .ok (frame, (track, (p, n)) :: last_full_values)
    | _, _ => .error ⟨"MissingBaselineError"⟩
  else
    match lookupKey last_full_values track with
    | some _ => .ok (markReused frame, last_full_values)
    | none => .error ⟨"MissingBaselineError"⟩

/-- Modelled from the spec: sink-side marker resolution — the sink "must
resolve this by reusing the last fully-specified value for that track".  A
marked property of a frame is replaced by the concrete value recorded for the
frame's track; concrete properties are kept as they are. -/
def resolve_reuse (baseline : Baseline) (e : Emit) : Emit :=
  match lookupKey baseline e.tag with
  | some pn =>
    { e with data :=
      { e.data with
        vertex_positions :=
          if e.data.vertex_positions = reuseMarker then .concrete pn.1
          else e.data.vertex_positions,
        vertex_normals :=
          if e.data.vertex_normals = reuseMarker then .concrete pn.2
          else e.data.vertex_normals } }
  | none => e

/-! ### `with_material` (lines 129-161): material assembly

File existence is modelled by the list of file names present in the model
directory; `o3d.t.io.read_image` is an opaque external reader producing an
image value.  Path-joining glue is dropped: file names are relative to the
model directory. -/

/-- The material descriptor assembled by `with_material` (lines 137-151). -/
structure Material (Img : Type) where
  name : String
  scalar_properties : List (String × ℚ)
  vector_properties : List (String × List ℚ)
  texture_maps : List (String × Img)
deriving DecidableEq, Repr

/-- The texture channels probed by the loop of line 144. -/
def texture_channels : List String :=
  ["albedo", "normal", "ao", "metallic", "roughness"]

/-- Material assembly of `with_material` (lines 137-151): start from the
empty `defaultLit` material; for each channel whose `<channel>.png` exists in
the directory, read it into `texture_maps` (a missing file just skips the
channel); finally set `base_metallic = 1.0` exactly when a metallic texture
was included. -/
def with_material_material {Img : Type} (present : List String)
    (read_image : String → Img) : Material Img :=
  let material : Material Img :=
    { name := "defaultLit", scalar_properties := [], vector_properties := [],
      texture_maps := [] }
  let material := texture_channels.foldl
    (fun mat texture =>
      let texture_file := texture ++ ".png"
      if texture_file ∈ present then
        { mat with texture_maps := mat.texture_maps ++ [(texture, read_image texture_file)] }
      else mat)
    material
  if (lookupKey material.texture_maps "metallic").isSome then
    { material with scalar_properties := material.scalar_properties ++ [("base_metallic", 1)] }
  else material

end Demo

namespace Demo

/-- A tiny concrete mesh used to instantiate theorems at concrete inputs. -/
def testMesh : Mesh where
  positions := [(0, 0, 0), (1, 0, 0), (0, 1, 0)]
  normals := [(0, 0, 1), (0, 0, 1), (0, 0, 1)]
  colors := []
  triangles := [(0, 1, 2)]

/-- A trivially succeeding mesh factory for concrete instantiation. -/
def testFactory : ℕ → Except Err Mesh := fun _ => .ok testMesh

/-- A trivially succeeding color schedule for concrete instantiation. -/
def testSchedule : ℕ → ℕ → Except Err V3 := fun _ _ => .ok (0, 0, 0)

/-- A factory that raises at resolution 2 and succeeds elsewhere. -/
def failFactory : ℕ → Except Err Mesh := fun r =>
  if r = 2 then .error ⟨"GeometryConstructionError"⟩ else .ok testMesh

/-- A schedule that raises at batch index 1 and succeeds elsewhere. -/
def failSchedule : ℕ → ℕ → Except Err V3 := fun k _ =>
  if k = 1 then .error ⟨"ScheduleError"⟩ else .ok (0, 0, 0)

/-! ## Shared computation lemmas -/

/-- Repainting overwrites the previous uniform color and touches nothing
else: painting is idempotent in everything but the last color. -/
theorem paint_paint (m : Mesh) (c c2 : V3) :
    paint_uniform_color (paint_uniform_color m c) c2 = paint_uniform_color m c2 := rfl

/-- `small_scale` unfolded: the exact six frames it emits, in order. -/
theorem small_scale_eq (cube cylinder : Mesh) :
    small_scale cube cylinder =
      ([⟨"cube", to_dict_batch [paint_uniform_color cube (1, 0, 0)], 0, none⟩,
        ⟨"cylinder", to_dict_batch [paint_uniform_color cylinder (1, 0, 0)], 0, none⟩,
        ⟨"cube", to_dict_batch [paint_uniform_color cube (0, 1, 0)], 1, none⟩,
        ⟨"cylinder", to_dict_batch [paint_uniform_color cylinder (0, 1, 0)], 1, none⟩,
        ⟨"cube", to_dict_batch [paint_uniform_color cube (0, 0, 1)], 2, none⟩,
        ⟨"cylinder", to_dict_batch [paint_uniform_color cylinder (0, 0, 1)], 2, none⟩],
       none) := rfl

/-- `property_reference` unfolded: the exact six frames it emits, in order;
the four frames of steps 1 and 2 have their positions/normals marked. -/
theorem property_reference_eq (cube cylinder : Mesh) :
    property_reference cube cylinder =
      ([⟨"cube", to_dict_batch [paint_uniform_color cube (1, 0, 0)], 0, none⟩,
        ⟨"cylinder", to_dict_batch [paint_uniform_color cylinder (1, 0, 0)], 0, none⟩,
        ⟨"cube", markReused (to_dict_batch [paint_uniform_color cube (0, 1, 0)]), 1, none⟩,
        ⟨"cylinder", markReused (to_dict_batch [paint_uniform_color cylinder (0, 1, 0)]), 1,
         none⟩,
        ⟨"cube", markReused (to_dict_batch [paint_uniform_color cube (0, 0, 1)]), 2, none⟩,
        ⟨"cylinder", markReused (to_dict_batch [paint_uniform_color cylinder (0, 0, 1)]), 2,
         none⟩],
       none) := rfl

/-! ## List helpers for the store model -/

/-- Setting right past a left append shifts the index. -/
theorem set_append_add {α : Type} (l l2 : List α) (n : ℕ) (x : α) :
    (l ++ l2).set (l.length + n) x = l ++ l2.set n x := by
  induction l with
  | nil => simp
  | cons a t ih =>
    have h : (a :: t).length + n = (t.length + n) + 1 := by simp; omega
    simp only [List.cons_append, h, List.set_cons_succ, ih]

/-- Setting the freshly appended last element. -/
theorem set_concat_length {α : Type} (l : List α) (a x : α) :
    (l ++ [a]).set l.length x = l ++ [x] := by
  have h := set_append_add l [a] 0 x
  simp [h]

/-- `getD` of the freshly appended last element. -/
theorem getD_concat_length {α : Type} (l : List α) (a d : α) :
    (l ++ [a]).getD l.length d = a := by
  rw [List.getD_append_right l [a] d l.length le_rfl]
  simp

/-! ## Batch-loop lemmas -/

/-- One batch iteration, evaluated: when the two reference lists hold exactly
`b` references and `colors[b]` exists, iteration `b` appends a painted deep
copy of each base to the store and records the two fresh references. -/
theorem batchStep_ok (cylBase moeBase : Mesh) (colors : List V3)
    (s : Store) (cyls moes : List ℕ) (b : ℕ) (cb : V3)
    (hcy : cyls.length = b) (hmo : moes.length = b)
    (hcol : colors.get? b = some cb) :
    batchStep cylBase moeBase colors (s, cyls, moes) b =
      .ok (s ++ [paint_uniform_color cylBase cb, paint_uniform_color moeBase cb],
           cyls ++ [s.length], moes ++ [s.length + 1]) := by
  have hcol2 : colors[b]? = some cb := by
    rw [← List.get?_eq_getElem?]
    exact hcol
  have h1 : (cyls ++ [s.length])[b]? = some s.length := by
    rw [← hcy]
    exact List.getElem?_concat_length cyls s.length
  have h2 : (moes ++ [s.length + 1])[b]? = some (s.length + 1) := by
    rw [← hmo]
    exact List.getElem?_concat_length moes (s.length + 1)
  have h3 : (s ++ [cylBase])[s.length]?.getD default = cylBase := by
    rw [← List.getD_eq_getElem?_getD]
    exact getD_concat_length s cylBase default
  have h4 : (s ++ [cylBase]).set s.length (paint_uniform_color cylBase cb) =
      s ++ [paint_uniform_color cylBase cb] := set_concat_length s cylBase _
  have h5 : (s ++ [paint_uniform_color cylBase cb] ++ [moeBase])[s.length + 1]?.getD
      default = moeBase := by
    rw [← List.getD_eq_getElem?_getD]
    have := getD_concat_length (s ++ [paint_uniform_color cylBase cb]) moeBase default
    simpa using this
  have h6 : (s ++ [paint_uniform_color cylBase cb] ++ [moeBase]).set (s.length + 1)
      (paint_uniform_color moeBase cb) =
      s ++ [paint_uniform_color cylBase cb, paint_uniform_color moeBase cb] := by
    simp
  have h7 : ∀ hb2 : s.length + 1 < (s ++ [paint_uniform_color cylBase cb, moeBase]).length,
      (s ++ [paint_uniform_color cylBase cb, moeBase])[s.length + 1] = moeBase := by
    intro hb2
    rw [List.getElem_append_right (by simp : s.length ≤ s.length + 1)]
    simp
  simp [batchStep, alloc, listIdx, storePaint, storeGet, h1, h2, h3, h4, h5, h6, hcol2,
    List.length_append, Bind.bind, Except.bind, Pure.pure, Except.pure, h7]

/-- Dereferencing below the old length is unaffected by appending. -/
theorem storeGet_append_left (s : Store) (l2 : List Mesh) (r : ℕ) (h : r < s.length) :
    storeGet (s ++ l2) r = storeGet s r :=
  List.getD_append s l2 default r h

/-- The first of two appended objects. -/
theorem storeGet_append_two_a (s : Store) (a b : Mesh) :
    storeGet (s ++ [a, b]) s.length = a := by
  unfold storeGet
  rw [List.getD_append_right s [a, b] default s.length le_rfl]
  simp

/-- The second of two appended objects. -/
theorem storeGet_append_two_b (s : Store) (a b : Mesh) :
    storeGet (s ++ [a, b]) (s.length + 1) = b := by
  unfold storeGet
  rw [List.getD_append_right s [a, b] default (s.length + 1) (by omega)]
  simp

/-- The batch loop, fully evaluated: starting from `b` already-built
instances, running the iterations `range' b k` succeeds (when the palette is
long enough), produces `b + k` references per track, leaves every
already-built instance untouched, and makes instance `j` a painted deep copy
of the base with color `colors[j]` — for each track. -/
theorem batchGo_ok (cylBase moeBase : Mesh) (colors : List V3) :
    ∀ (k b : ℕ) (s : Store) (cyls moes : List ℕ),
    cyls.length = b → moes.length = b → b + k ≤ colors.length →
    (∀ j, j < b → cyls.getD j 0 < s.length ∧ moes.getD j 0 < s.length) →
    ∃ s2 cyls2 moes2,
      batchGo cylBase moeBase colors (s, cyls, moes) (List.range' b k) =
        .ok (s2, cyls2, moes2) ∧
      cyls2.length = b + k ∧ moes2.length = b + k ∧
      s2.length = s.length + 2 * k ∧
      (∀ j, j < b → cyls2.getD j 0 = cyls.getD j 0 ∧ moes2.getD j 0 = moes.getD j 0) ∧
      (∀ j, j < b + k → cyls2.getD j 0 < s2.length ∧ moes2.getD j 0 < s2.length) ∧
      (∀ j, j < b → storeGet s2 (cyls.getD j 0) = storeGet s (cyls.getD j 0) ∧
        storeGet s2 (moes.getD j 0) = storeGet s (moes.getD j 0)) ∧
      (∀ j, b ≤ j → j < b + k →
        storeGet s2 (cyls2.getD j 0) = paint_uniform_color cylBase (colors.getD j default) ∧
        storeGet s2 (moes2.getD j 0) = paint_uniform_color moeBase (colors.getD j default)) := by
  intro k
  induction k with
  | zero =>
    intro b s cyls moes hcy hmo hk hv
    refine ⟨s, cyls, moes, rfl, by omega, by omega, by omega,
      fun j _ => ⟨rfl, rfl⟩, fun j hj => hv j (by omega), fun j _ => ⟨rfl, rfl⟩,
      fun j hj hj2 => absurd hj2 (by omega)⟩
  | succ k ih =>
    intro b s cyls moes hcy hmo hk hv
    have hblt : b < colors.length := by omega
    obtain ⟨cb, hcb⟩ : ∃ cb, colors[b]? = some cb :=
      ⟨colors[b], List.getElem?_eq_getElem hblt⟩
    have hcb2 : colors.get? b = some cb := by rw [List.get?_eq_getElem?]; exact hcb
    have hcbD : colors.getD b default = cb := by
      rw [List.getD_eq_getElem?_getD, hcb]
      rfl
    have hstep := batchStep_ok cylBase moeBase colors s cyls moes b cb hcy hmo hcb2
    have hgetc : (cyls ++ [s.length]).getD b 0 = s.length := by
      rw [← hcy]
      exact getD_concat_length cyls s.length 0
    have hgetm : (moes ++ [s.length + 1]).getD b 0 = s.length + 1 := by
      rw [← hmo]
      exact getD_concat_length moes (s.length + 1) 0
    have hlen2 : (s ++ [paint_uniform_color cylBase cb,
        paint_uniform_color moeBase cb]).length = s.length + 2 := by simp
    have hv2 : ∀ j, j < b + 1 →
        (cyls ++ [s.length]).getD j 0 <
          (s ++ [paint_uniform_color cylBase cb, paint_uniform_color moeBase cb]).length ∧
        (moes ++ [s.length + 1]).getD j 0 <
          (s ++ [paint_uniform_color cylBase cb, paint_uniform_color moeBase cb]).length := by
      intro j hj
      rw [hlen2]
      rcases Nat.lt_or_ge j b with hjb | hjb
      · rw [List.getD_append cyls [s.length] 0 j (by omega),
          List.getD_append moes [s.length + 1] 0 j (by omega)]
        obtain ⟨ha, hb2⟩ := hv j hjb
        exact ⟨by omega, by omega⟩
      · have hjeq : j = b := by omega
        rw [hjeq, hgetc, hgetm]
        exact ⟨by omega, by omega⟩
    obtain ⟨s2, cyls2, moes2, hgo, hl1, hl2, hl3, hpre, hval, hold, hcontent⟩ :=
      ih (b + 1) (s ++ [paint_uniform_color cylBase cb, paint_uniform_color moeBase cb])
        (cyls ++ [s.length]) (moes ++ [s.length + 1])
        (by simp [hcy]) (by simp [hmo]) (by omega) hv2
    rw [hlen2] at hl3
    have hrange : List.range' b (k + 1) = b :: List.range' (b + 1) k :=
      List.range'_succ b k 1
    refine ⟨s2, cyls2, moes2, ?_, by omega, by omega, by omega, ?_, ?_, ?_, ?_⟩
    · rw [hrange]
      simp only [batchGo, hstep, Bind.bind, Except.bind]
      exact hgo
    · -- the previously built prefix of references is preserved
      intro j hj
      have h1 := (hpre j (by omega)).1
      have h2 := (hpre j (by omega)).2
      rw [List.getD_append cyls [s.length] 0 j (by omega)] at h1
      rw [List.getD_append moes [s.length + 1] 0 j (by omega)] at h2
      exact ⟨h1, h2⟩
    · -- validity of every reference in the final store
      intro j hj
      exact hval j (by omega)
    · -- previously built objects are untouched
      intro j hj
      have hjc : cyls.getD j 0 < s.length := (hv j hj).1
      have hjm : moes.getD j 0 < s.length := (hv j hj).2
      have h1 := hold j (by omega)
      rw [List.getD_append cyls [s.length] 0 j (by omega),
        List.getD_append moes [s.length + 1] 0 j (by omega)] at h1
      rw [h1.1, h1.2, storeGet_append_left s _ _ hjc, storeGet_append_left s _ _ hjm]
      exact ⟨rfl, rfl⟩
    · -- each new instance is its own painted deep copy of the base
      intro j hjb hjk
      rcases Nat.lt_or_ge j (b + 1) with hj1 | hj1
      · have hjeq : j = b := by omega
        have hp1 := (hpre b (by omega)).1
        have hp2 := (hpre b (by omega)).2
        rw [hgetc] at hp1
        rw [hgetm] at hp2
        have ho1 := (hold b (by omega)).1
        have ho2 := (hold b (by omega)).2
        rw [hgetc] at ho1
        rw [hgetm] at ho2
        rw [storeGet_append_two_a] at ho1
        rw [storeGet_append_two_b] at ho2
        rw [hjeq, hp1, hp2, ho1, ho2, hcbD]
        exact ⟨rfl, rfl⟩
      · exact hcontent j hj1 (by omega)

/-! ## Palette and step-loop lemmas -/

/-- A batch built by `to_dict_batch` has one instance per mesh. -/
theorem batchLen_to_dict_batch (ms : List Mesh) : batchLen (to_dict_batch ms) = ms.length := by
  simp [batchLen, to_dict_batch, propBatchLen]

/-- Splitting an index range at `s`. -/
theorem range_split (n s : ℕ) (h : s ≤ n) :
    List.range n = List.range' 0 s ++ List.range' s (n - s) := by
  have h2 := List.range'_append 0 s (n - s) 1
  simp only [one_mul, zero_add] at h2
  conv_lhs => rw [List.range_eq_range', show n = n - s + s by omega]
  exact h2.symm

/-- Palette construction succeeds and grows the accumulator by one color per
index, provided the schedule succeeds on every index of the list. -/
theorem mkColorsGo_ok (sch : ℕ → ℕ → Except Err V3) (bs : ℕ) :
    ∀ (l : List ℕ) (acc : List V3), (∀ k2 ∈ l, ∃ c, sch k2 bs = .ok c) →
    ∃ out, mkColorsGo sch bs acc l = .ok out ∧ out.length = acc.length + l.length := by
  intro l
  induction l with
  | nil => exact fun acc _ => ⟨acc, rfl, by simp [mkColorsGo]⟩
  | cons k2 rest ih =>
    intro acc h
    obtain ⟨c, hc⟩ := h k2 (by simp)
    obtain ⟨out, hout, hlen⟩ := ih (acc ++ [c]) (fun x hx => h x (by simp [hx]))
    refine ⟨out, ?_, ?_⟩
    · simp only [mkColorsGo, hc]
      exact hout
    · simp only [List.length_append, List.length_cons, List.length_nil] at hlen ⊢
      omega

/-- The palette of `large_scale` has exactly `batch_size` entries when the
schedule never raises. -/
theorem mkColors_ok (sch : ℕ → ℕ → Except Err V3) (bs : ℕ)
    (h : ∀ k2, k2 < bs → ∃ c, sch k2 bs = .ok c) :
    ∃ colors, mkColors sch bs = .ok colors ∧ colors.length = bs := by
  obtain ⟨out, hout, hlen⟩ :=
    mkColorsGo_ok sch bs (List.range bs) [] (fun x hx => h x (List.mem_range.mp hx))
  refine ⟨out, hout, ?_⟩
  simp at hlen
  exact hlen

/-- Palette construction propagates the first schedule failure. -/
theorem mkColorsGo_error (sch : ℕ → ℕ → Except Err V3) (bs k : ℕ) (err : Err)
    (hk : ∀ j, j < k → ∃ c, sch j bs = .ok c) (hfail : sch k bs = .error err) :
    ∀ (m a : ℕ) (acc : List V3), a ≤ k → k < a + m →
    mkColorsGo sch bs acc (List.range' a m) = .error err := by
  intro m
  induction m with
  | zero => intro a acc h1 h2; omega
  | succ m ih =>
    intro a acc h1 h2
    rw [List.range'_succ]
    rcases Nat.eq_or_lt_of_le h1 with heq | hlt
    · have hfa : sch a bs = .error err := by rw [heq]; exact hfail
      simp only [mkColorsGo, hfa]
    · obtain ⟨c, hc⟩ := hk a hlt
      simp only [mkColorsGo, hc]
      exact ih (a + 1) (acc ++ [c]) (by omega) (by omega)

/-- `mkColors` propagates the first schedule failure. -/
theorem mkColors_error (sch : ℕ → ℕ → Except Err V3) (bs k : ℕ) (err : Err)
    (hk : ∀ j, j < k → ∃ c, sch j bs = .ok c) (hfail : sch k bs = .error err)
    (hlt : k < bs) : mkColors sch bs = .error err := by
  rw [mkColors, List.range_eq_range']
  exact mkColorsGo_error sch bs k err hk hfail bs 0 [] (by omega) (by omega)

/-- The step loop splits over a split step list: a failure in the first part
short-circuits, a success continues into the second part. -/
theorem lsgo_append (fcyl fmoe : ℕ → Except Err Mesh) (br bs : ℕ) (colors : List V3) :
    ∀ (l1 l2 : List ℕ) (log : List Emit),
    large_scale_go fcyl fmoe br bs colors log (l1 ++ l2) =
      match large_scale_go fcyl fmoe br bs colors log l1 with
      | (log2, none) => large_scale_go fcyl fmoe br bs colors log2 l2
      | (log2, some e) => (log2, some e) := by
  intro l1
  induction l1 with
  | nil => intro l2 log; rfl
  | cons t rest ih =>
    intro l2 log
    simp only [List.cons_append, large_scale_go]
    cases hc : fcyl (br * (t + 1)) with
    | error e => simp
    | ok cyl =>
      dsimp only
      cases hm : fmoe (br * (t + 1)) with
      | error e => simp
      | ok moe =>
        dsimp only
        cases hb : batchGo cyl moe colors ([], [], []) (List.range bs) with
        | error e => simp
        | ok st =>
          obtain ⟨s, cyls, moes⟩ := st
          dsimp only
          exact ih l2 _

/-- The step loop, evaluated on a list of steps on which both factories
succeed: it emits exactly two frames per step (`cylinder` then `moebius`),
each tagged with the step, capped at `max_outputs = batch_size` and carrying
a batch of `batch_size` instances. -/
theorem lsgo_ok (fcyl fmoe : ℕ → Except Err Mesh) (br bs : ℕ) (colors : List V3)
    (hclen : colors.length = bs) :
    ∀ (steps : List ℕ) (log : List Emit),
    (∀ t ∈ steps, ∃ m, fcyl (br * (t + 1)) = .ok m) →
    (∀ t ∈ steps, ∃ m, fmoe (br * (t + 1)) = .ok m) →
    ∃ new, large_scale_go fcyl fmoe br bs colors log steps = (log ++ new, none) ∧
      new.length = 2 * steps.length ∧
      ∀ e ∈ new, e.step ∈ steps ∧ e.max_outputs = some bs ∧ batchLen e.data = bs := by
  intro steps
  induction steps with
  | nil => exact fun log _ _ => ⟨[], by simp [large_scale_go], by simp, by simp⟩
  | cons t rest ih =>
    intro log hfc hfm
    obtain ⟨cyl, hcyl⟩ := hfc t (by simp)
    obtain ⟨moe, hmoe⟩ := hfm t (by simp)
    obtain ⟨s2, cyls2, moes2, hgo, hl1, hl2, -, -, -, -, -⟩ :=
      batchGo_ok cyl moe colors bs 0 [] [] [] rfl rfl (by omega)
        (fun j hj => absurd hj (by omega))
    obtain ⟨new2, hgo2, hlen2, hmem2⟩ :=
      ih (log ++ [⟨"cylinder", to_dict_batch (cyls2.map (storeGet s2)), t, some bs⟩,
          ⟨"moebius", to_dict_batch (moes2.map (storeGet s2)), t, some bs⟩])
        (fun x hx => hfc x (by simp [hx])) (fun x hx => hfm x (by simp [hx]))
    refine ⟨[⟨"cylinder", to_dict_batch (cyls2.map (storeGet s2)), t, some bs⟩,
        ⟨"moebius", to_dict_batch (moes2.map (storeGet s2)), t, some bs⟩] ++ new2,
      ?_, ?_, ?_⟩
    · simp only [large_scale_go, hcyl, hmoe, List.range_eq_range', hgo]
      rw [hgo2, List.append_assoc]
    · simp only [List.length_append, List.length_cons, List.length_nil] at hlen2 ⊢
      omega
    · intro e he
      rw [List.mem_append] at he
      rcases he with he | he
      · simp only [List.mem_cons, List.not_mem_nil, or_false] at he
        rcases he with he | he
        · subst he
          refine ⟨by simp, rfl, ?_⟩
          rw [batchLen_to_dict_batch, List.length_map]
          omega
        · subst he
          refine ⟨by simp, rfl, ?_⟩
          rw [batchLen_to_dict_batch, List.length_map]
          omega
      · obtain ⟨hstep, hmax, hbl⟩ := hmem2 e he
        exact ⟨by simp [hstep], hmax, hbl⟩

/-- `large_scale` as a whole, when nothing raises: `2 * n_steps` frames, two
per step, each with a `batch_size`-instance batch capped at `batch_size`. -/
theorem large_scale_ok (fcyl fmoe : ℕ → Except Err Mesh)
    (sch : ℕ → ℕ → Except Err V3) (n bs br : ℕ)
    (hfc : ∀ r, ∃ m, fcyl r = .ok m) (hfm : ∀ r, ∃ m, fmoe r = .ok m)
    (hsch : ∀ k2 n2, ∃ c, sch k2 n2 = .ok c) :
    ∃ log, large_scale fcyl fmoe sch n bs br = (log, none) ∧
      log.length = 2 * n ∧
      ∀ e ∈ log, e.step < n ∧ e.max_outputs = some bs ∧ batchLen e.data = bs := by
  obtain ⟨colors, hcol, hclen⟩ := mkColors_ok sch bs (fun k2 _ => hsch k2 bs)
  obtain ⟨new, hgo, hlen, hmem⟩ := lsgo_ok fcyl fmoe br bs colors hclen (List.range n) []
    (fun t _ => hfc _) (fun t _ => hfm _)
  refine ⟨new, ?_, ?_, fun e he => ?_⟩
  · simp only [large_scale, hcol]
    simp only [List.nil_append] at hgo
    exact hgo
  · simp at hlen
    omega
  · obtain ⟨hstep, hmax, hbl⟩ := hmem e he
    exact ⟨List.mem_range.mp hstep, hmax, hbl⟩

/-! ## Claim theorems -/

/-- C3: `small_scale` with its 3 steps, batch size 1, tracks cube and
cylinder and the fixed palette red/green/blue emits exactly 6 frames; the
cube track is painted red at step 0, green at step 1, blue at step 2, and the
cylinder track analogously; steps appear in strictly increasing order, and
within each step the cube frame precedes the cylinder frame. -/
theorem small_scale_end_to_end (cube cylinder : Mesh) :
    (small_scale cube cylinder).2 = none ∧
    (small_scale cube cylinder).1.length = 6 ∧
    (small_scale cube cylinder).1.map (fun e => (e.tag, e.step)) =
      [("cube", 0), ("cylinder", 0), ("cube", 1), ("cylinder", 1),
       ("cube", 2), ("cylinder", 2)] ∧
    (small_scale cube cylinder).1.map (fun e => e.data.vertex_colors) =
      [.concrete [List.replicate cube.positions.length (1, 0, 0)],
       .concrete [List.replicate cylinder.positions.length (1, 0, 0)],
       .concrete [List.replicate cube.positions.length (0, 1, 0)],
       .concrete [List.replicate cylinder.positions.length (0, 1, 0)],
       .concrete [List.replicate cube.positions.length (0, 0, 1)],
       .concrete [List.replicate cylinder.positions.length (0, 0, 1)]] :=
  ⟨rfl, rfl, rfl, rfl⟩

/-- C2: in `property_reference`, every frame of a step `> 0` (the four frames
at indices 2-5, steps 1 and 2) reaches the sink with `vertex_positions` and
`vertex_normals` replaced by the integer-0 reuse marker, while the two step-0
frames are handed over unchanged, with concrete values for both
properties. -/
theorem property_reference_marks_later_steps (cube cylinder : Mesh) :
    (property_reference cube cylinder).2 = none ∧
    (property_reference cube cylinder).1.length = 6 ∧
    (property_reference cube cylinder).1.map Emit.step = [0, 0, 1, 1, 2, 2] ∧
    ((property_reference cube cylinder).1.getD 0 default) =
      ⟨"cube", to_dict_batch [paint_uniform_color cube (1, 0, 0)], 0, none⟩ ∧
    ((property_reference cube cylinder).1.getD 1 default) =
      ⟨"cylinder", to_dict_batch [paint_uniform_color cylinder (1, 0, 0)], 0, none⟩ ∧
    ((property_reference cube cylinder).1.getD 0 default).data.vertex_positions =
      PropVal.concrete [cube.positions] ∧
    ((property_reference cube cylinder).1.getD 0 default).data.vertex_normals =
      PropVal.concrete [cube.normals] ∧
    ((property_reference cube cylinder).1.getD 1 default).data.vertex_positions =
      PropVal.concrete [cylinder.positions] ∧
    ((property_reference cube cylinder).1.getD 1 default).data.vertex_normals =
      PropVal.concrete [cylinder.normals] ∧
    (property_reference cube cylinder).1.map (fun e => e.data.vertex_positions) =
      [.concrete [cube.positions], .concrete [cylinder.positions],
       .intVal 0, .intVal 0, .intVal 0, .intVal 0] ∧
    (property_reference cube cylinder).1.map (fun e => e.data.vertex_normals) =
      [.concrete [cube.normals], .concrete [cylinder.normals],
       .intVal 0, .intVal 0, .intVal 0, .intVal 0] :=
  ⟨rfl, rfl, rfl, rfl, rfl, rfl, rfl, rfl, rfl, rfl, rfl⟩

/-- C9: between steps, `property_reference` only repaints its meshes, so the
concrete positions/normals underlying every frame equal the step-0 values
(visible on `small_scale`, which emits them unmarked: every frame carries the
mesh's original positions/normals); the two runs emit the same tags, steps
and vertex colors, and resolving the markers of `property_reference` against
the step-0 baselines reproduces the `small_scale` frames exactly. -/
theorem property_reference_only_colors_differ (cube cylinder : Mesh) :
    (small_scale cube cylinder).1.map (fun e => e.data.vertex_positions) =
      [.concrete [cube.positions], .concrete [cylinder.positions],
       .concrete [cube.positions], .concrete [cylinder.positions],
       .concrete [cube.positions], .concrete [cylinder.positions]] ∧
    (small_scale cube cylinder).1.map (fun e => e.data.vertex_normals) =
      [.concrete [cube.normals], .concrete [cylinder.normals],
       .concrete [cube.normals], .concrete [cylinder.normals],
       .concrete [cube.normals], .concrete [cylinder.normals]] ∧
    (property_reference cube cylinder).1.map (fun e => (e.tag, e.step)) =
      (small_scale cube cylinder).1.map (fun e => (e.tag, e.step)) ∧
    (property_reference cube cylinder).1.map (fun e => e.data.vertex_colors) =
      (small_scale cube cylinder).1.map (fun e => e.data.vertex_colors) ∧
    (property_reference cube cylinder).1.map (fun e => e.data.triangle_indices) =
      (small_scale cube cylinder).1.map (fun e => e.data.triangle_indices) ∧
    (property_reference cube cylinder).1.map
        (resolve_reuse
          [("cube", ([cube.positions], [cube.normals])),
           ("cylinder", ([cylinder.positions], [cylinder.normals]))]) =
      (small_scale cube cylinder).1 :=
  ⟨rfl, rfl, rfl, rfl, rfl, rfl⟩

/-- C4: applying property reuse at a step `≥ 1` for a track with no recorded
step-0 baseline fails with `MissingBaselineError` instead of producing a
frame with an unresolvable marker. -/
theorem apply_property_reuse_missing_baseline (track : String)
    (frame : SummaryDict) (step : ℕ) (last_full_values : Baseline)
    (hstep : 1 ≤ step) (hnone : lookupKey last_full_values track = none) :
    apply_property_reuse track frame step last_full_values =
      .error ⟨"MissingBaselineError"⟩ := by
  have h0 : ¬ step = 0 := by omega
  simp [apply_property_reuse, h0, hnone]

/-- Witness for C4: at step 1 with an empty baseline store, the reuse
transformation raises `MissingBaselineError` on a concrete cube frame. -/
theorem apply_property_reuse_missing_baseline_witness :
    apply_property_reuse "cube" (to_dict_batch [testMesh]) 1 [] =
      .error ⟨"MissingBaselineError"⟩ :=
  apply_property_reuse_missing_baseline "cube" (to_dict_batch [testMesh]) 1 []
    (by decide) rfl

/-- Rational bounds on `√3`, used to bound the schedule's sine terms. -/
theorem sqrt3_bounds : (1.732 : ℝ) < Real.sqrt 3 ∧ Real.sqrt 3 < 1.7321 := by
  have h := Real.sq_sqrt (show (0:ℝ) ≤ 3 by norm_num)
  have hn := Real.sqrt_nonneg 3
  constructor <;> nlinarith

/-- The schedule parameter at batch index 1 of 3 is `π/3`. -/
theorem sched_t_one_third : ((1 : ℕ) : ℝ) * Real.pi / ((3 : ℕ) : ℝ) = Real.pi / 3 := by
  push_cast
  ring

/-- The schedule parameter at batch index 2 of 3 is `2π/3 = π - π/3`. -/
theorem sched_t_two_thirds :
    ((2 : ℕ) : ℝ) * Real.pi / ((3 : ℕ) : ℝ) = Real.pi - Real.pi / 3 := by
  push_cast
  ring

/-- C5: the color schedule is the deterministic angular sweep
`t = k·π/batch_size`, `color = ((1+sin t)/2, (1+cos t)/2, t/π)`; for
`batch_size = 3` it yields exactly `(0.5, 1.0, 0.0)` at index 0, and within
`10⁻³` of `(0.933, 0.75, 0.333)` at index 1 and of `(0.933, 0.25, 0.667)` at
index 2. -/
theorem color_schedule_values :
    color_schedule 0 3 = (1 / 2, 1, 0) ∧
    |(color_schedule 1 3).1 - 933 / 1000| < 1 / 1000 ∧
    |(color_schedule 1 3).2.1 - 75 / 100| < 1 / 1000 ∧
    |(color_schedule 1 3).2.2 - 333 / 1000| < 1 / 1000 ∧
    |(color_schedule 2 3).1 - 933 / 1000| < 1 / 1000 ∧
    |(color_schedule 2 3).2.1 - 25 / 100| < 1 / 1000 ∧
    |(color_schedule 2 3).2.2 - 667 / 1000| < 1 / 1000 := by
  obtain ⟨hl, hr⟩ := sqrt3_bounds
  refine ⟨by simp [color_schedule], ?_, ?_, ?_, ?_, ?_, ?_⟩
  · have h1 : (color_schedule 1 3).1 = (1 + Real.sqrt 3 / 2) / 2 := by
      simp only [color_schedule, sched_t_one_third, Real.sin_pi_div_three]
    rw [h1, abs_lt]
    constructor <;> nlinarith
  · have h1 : (color_schedule 1 3).2.1 = (1 + 1 / 2) / 2 := by
      simp only [color_schedule, sched_t_one_third, Real.cos_pi_div_three]
    rw [h1, abs_lt]
    norm_num
  · have h1 : (color_schedule 1 3).2.2 = 1 / 3 := by
      simp only [color_schedule, sched_t_one_third]
      field_simp
      ring
    rw [h1, abs_lt]
    norm_num
  · have h1 : (color_schedule 2 3).1 = (1 + Real.sqrt 3 / 2) / 2 := by
      simp only [color_schedule, sched_t_two_thirds, Real.sin_pi_sub,
        Real.sin_pi_div_three]
    rw [h1, abs_lt]
    constructor <;> nlinarith
  · have h1 : (color_schedule 2 3).2.1 = (1 + -(1 / 2)) / 2 := by
      simp only [color_schedule, sched_t_two_thirds, Real.cos_pi_sub,
        Real.cos_pi_div_three]
    rw [h1, abs_lt]
    norm_num
  · have h1 : (color_schedule 2 3).2.2 = 2 / 3 := by
      simp only [color_schedule, sched_t_two_thirds]
      field_simp
      ring
    rw [h1, abs_lt]
    norm_num

/-- C6: in `with_material`'s material assembly, a texture channel is included
in `texture_maps` exactly when its `<channel>.png` file exists in the model
directory (a missing file is non-fatal: the channel is just omitted), and
`scalar_properties` contains `base_metallic = 1.0` exactly when the metallic
texture was included; in particular a directory with `albedo.png` and
`metallic.png` but no `normal.png` yields exactly those two channels and no
`normal` key. -/
theorem with_material_texture_channels {Img : Type} (present : List String)
    (read_image : String → Img) :
    ((lookupKey (with_material_material present read_image).texture_maps "albedo").isSome
      ↔ "albedo.png" ∈ present) ∧
    ((lookupKey (with_material_material present read_image).texture_maps "normal").isSome
      ↔ "normal.png" ∈ present) ∧
    ((lookupKey (with_material_material present read_image).texture_maps "ao").isSome
      ↔ "ao.png" ∈ present) ∧
    ((lookupKey (with_material_material present read_image).texture_maps "metallic").isSome
      ↔ "metallic.png" ∈ present) ∧
    ((lookupKey (with_material_material present read_image).texture_maps "roughness").isSome
      ↔ "roughness.png" ∈ present) ∧
    (lookupKey (with_material_material present read_image).scalar_properties "base_metallic"
      = some 1 ↔ "metallic.png" ∈ present) ∧
    (with_material_material ["model.obj", "albedo.png", "metallic.png"]
        read_image).texture_maps
      = [("albedo", read_image "albedo.png"), ("metallic", read_image "metallic.png")] ∧
    (with_material_material ["model.obj", "albedo.png", "metallic.png"]
        read_image).scalar_properties = [("base_metallic", 1)] ∧
    lookupKey (with_material_material ["model.obj", "albedo.png", "metallic.png"]
        read_image).texture_maps "normal" = none := by
  refine ⟨?_, ?_, ?_, ?_, ?_, ?_, rfl, rfl, rfl⟩ <;>
    (by_cases h1 : "albedo.png" ∈ present <;>
      by_cases h2 : "normal.png" ∈ present <;>
      by_cases h3 : "ao.png" ∈ present <;>
      by_cases h4 : "metallic.png" ∈ present <;>
      by_cases h5 : "roughness.png" ∈ present <;>
      simp_all [with_material_material, texture_channels, lookupKey])

/-- C1: for `num_steps ≥ 1` and `batch_size ≥ 1`, one `large_scale`
invocation whose factories and schedule never raise emits exactly
`num_steps · 2` frames (two tracks), each capped at
`max_outputs = batch_size` and carrying a batch of exactly
`min(batch_size, max_outputs) = batch_size` geometry instances. -/
theorem large_scale_frame_count (fcylinder fmoebius : ℕ → Except Err Mesh)
    (sch : ℕ → ℕ → Except Err V3) (num_steps batch_size base_resolution : ℕ)
    (_hn : 1 ≤ num_steps) (_hb : 1 ≤ batch_size)
    (hfc : ∀ r, ∃ m, fcylinder r = .ok m) (hfm : ∀ r, ∃ m, fmoebius r = .ok m)
    (hsch : ∀ k n, ∃ c, sch k n = .ok c) :
    ∃ log, large_scale fcylinder fmoebius sch num_steps batch_size base_resolution =
        (log, none) ∧
      log.length = num_steps * 2 ∧
      ∀ e ∈ log, e.max_outputs = some batch_size ∧
        batchLen e.data = batch_size ∧
        emitted_instances e = min batch_size batch_size := by
  obtain ⟨log, h1, h2, h3⟩ :=
    large_scale_ok fcylinder fmoebius sch num_steps batch_size base_resolution hfc hfm hsch
  refine ⟨log, h1, by omega, fun e he => ?_⟩
  obtain ⟨-, hmax, hbl⟩ := h3 e he
  refine ⟨hmax, hbl, ?_⟩
  simp [emitted_instances, hmax, hbl]

/-- Witness for C1: one step, batch size one, trivial factories: two frames,
each with one emitted instance. -/
theorem large_scale_frame_count_witness :
    ∃ log, large_scale testFactory testFactory testSchedule 1 1 200 = (log, none) ∧
      log.length = 1 * 2 ∧
      ∀ e ∈ log, e.max_outputs = some 1 ∧ batchLen e.data = 1 ∧
        emitted_instances e = min 1 1 :=
  large_scale_frame_count testFactory testFactory testSchedule 1 1 200
    (by decide) (by decide) (fun r => ⟨testMesh, rfl⟩) (fun r => ⟨testMesh, rfl⟩)
    (fun k n => ⟨(0, 0, 0), rfl⟩)

/-- C10: every list index used by the demos is in bounds: `small_scale` and
`property_reference` index their 3-color palette only with steps in
`[0, 3)`, and `large_scale` builds its palette with exactly `batch_size`
entries and indexes it — and the two per-step instance lists — only with
`b ∈ [0, batch_size)`; hence none of the runs raises `IndexError` (no raise
at all when the external factories and schedule succeed). -/
theorem demo_indexing_in_bounds (cube cylinder : Mesh)
    (fcylinder fmoebius : ℕ → Except Err Mesh) (sch : ℕ → ℕ → Except Err V3)
    (num_steps batch_size base_resolution : ℕ) (_hb : 1 ≤ batch_size)
    (hfc : ∀ r, ∃ m, fcylinder r = .ok m) (hfm : ∀ r, ∃ m, fmoebius r = .ok m)
    (hsch : ∀ k n, ∃ c, sch k n = .ok c) :
    (small_scale cube cylinder).2 = none ∧
    (property_reference cube cylinder).2 = none ∧
    (large_scale fcylinder fmoebius sch num_steps batch_size base_resolution).2 = none := by
  refine ⟨rfl, rfl, ?_⟩
  obtain ⟨log, h1, -, -⟩ :=
    large_scale_ok fcylinder fmoebius sch num_steps batch_size base_resolution hfc hfm hsch
  rw [h1]

/-- Witness for C10: the three demo runs at concrete inputs return without an
error. -/
theorem demo_indexing_in_bounds_witness :
    (small_scale testMesh testMesh).2 = none ∧
    (property_reference testMesh testMesh).2 = none ∧
    (large_scale testFactory testFactory testSchedule 4 3 200).2 = none :=
  demo_indexing_in_bounds testMesh testMesh testFactory testFactory testSchedule 4 3 200
    (by decide) (fun r => ⟨testMesh, rfl⟩) (fun r => ⟨testMesh, rfl⟩)
    (fun k n => ⟨(0, 0, 0), rfl⟩)

/-- C7: `large_scale` is fail-fast with no local recovery and no rollback.
First part: if the geometry factory raises at step `s` (succeeding before),
the run returns exactly the frames of the first `s` steps — the same log a
run of `s` steps produces — together with the originating error; no frame of
step `s` and no later step is emitted.  Second part: if the color schedule
raises at batch index `k` (succeeding below), the error surfaces before any
frame is emitted. -/
theorem large_scale_fail_fast (fcylinder fmoebius : ℕ → Except Err Mesh)
    (sch : ℕ → ℕ → Except Err V3) (n bs br s k : ℕ) (err err2 : Err) :
    (s < n →
      (∀ t, t < s → ∃ m, fcylinder (br * (t + 1)) = .ok m) →
      (∀ t, t < s → ∃ m, fmoebius (br * (t + 1)) = .ok m) →
      fcylinder (br * (s + 1)) = .error err →
      (∀ k2 n2, ∃ c, sch k2 n2 = .ok c) →
      ∃ log, large_scale fcylinder fmoebius sch n bs br = (log, some err) ∧
        large_scale fcylinder fmoebius sch s bs br = (log, none) ∧
        ∀ e ∈ log, e.step < s) ∧
    (k < bs →
      (∀ j, j < k → ∃ c, sch j bs = .ok c) →
      sch k bs = .error err2 →
      large_scale fcylinder fmoebius sch n bs br = ([], some err2)) := by
  constructor
  · intro hsn hok1 hok2 hfail hsch
    obtain ⟨colors, hcol, hclen⟩ := mkColors_ok sch bs (fun k2 _ => hsch k2 bs)
    obtain ⟨new, hgo1, hlen1, hmem1⟩ :=
      lsgo_ok fcylinder fmoebius br bs colors hclen (List.range' 0 s) []
        (fun t ht => hok1 t (by have := List.mem_range'_1.mp ht; omega))
        (fun t ht => hok2 t (by have := List.mem_range'_1.mp ht; omega))
    simp only [List.nil_append] at hgo1
    have htail : large_scale_go fcylinder fmoebius br bs colors new
        (List.range' s (n - s)) = (new, some err) := by
      have hr : List.range' s (n - s) = s :: List.range' (s + 1) (n - s - 1) := by
        have h2 := List.range'_succ s (n - s - 1) 1
        rw [show n - s - 1 + 1 = n - s by omega] at h2
        exact h2
      rw [hr]
      simp only [large_scale_go, hfail]
    refine ⟨new, ?_, ?_, ?_⟩
    · simp only [large_scale, hcol]
      rw [range_split n s (by omega),
        lsgo_append fcylinder fmoebius br bs colors (List.range' 0 s)
          (List.range' s (n - s)) [], hgo1]
      exact htail
    · simp only [large_scale, hcol]
      rw [List.range_eq_range']
      exact hgo1
    · intro e he
      have := (hmem1 e he).1
      have := List.mem_range'_1.mp this
      omega
  · intro hk hok hfail2
    have hmk := mkColors_error sch bs k err2 hok hfail2 hk
    simp only [large_scale, hmk]

/-- Witness for C7: a factory failing at step 1 of 2 leaves exactly the two
step-0 frames and surfaces the error; a schedule failing at batch index 1
aborts before any frame. -/
theorem large_scale_fail_fast_witness :
    (∃ log, large_scale failFactory testFactory testSchedule 2 1 1 =
        (log, some ⟨"GeometryConstructionError"⟩) ∧
      large_scale failFactory testFactory testSchedule 1 1 1 = (log, none) ∧
      ∀ e ∈ log, e.step < 1) ∧
    large_scale testFactory testFactory failSchedule 2 2 1 = ([], some ⟨"ScheduleError"⟩) :=
  ⟨(large_scale_fail_fast failFactory testFactory testSchedule 2 1 1 1 0
      ⟨"GeometryConstructionError"⟩ ⟨"unused"⟩).1 (by decide)
      (fun t ht => ⟨testMesh, by rw [show t = 0 by omega]; rfl⟩)
      (fun t ht => ⟨testMesh, rfl⟩) rfl (fun k2 n2 => ⟨(0, 0, 0), rfl⟩),
   (large_scale_fail_fast testFactory testFactory failSchedule 2 2 1 0 1
      ⟨"unused"⟩ ⟨"ScheduleError"⟩).2 (by decide)
      (fun j hj => ⟨(0, 0, 0), by rw [show j = 0 by omega]; rfl⟩) rfl⟩

/-- C8: deep-copy isolation in `large_scale`'s batch loop.  First part: after
the whole loop, instance `j` of either track is exactly the base geometry
painted with its own color `colors[j]` — its per-vertex colors and all other
fields are independent of the painting of every other instance.  Second
part: the loop iteration that deep-copies and paints instance `i` leaves
every previously built instance `j < i` (both tracks) completely
unchanged. -/
theorem batch_paint_isolation (cylinderBase moebiusBase : Mesh) (colors : List V3)
    (bs : ℕ) (hbs : bs ≤ colors.length) :
    (∃ s cyls moes,
      batchGo cylinderBase moebiusBase colors ([], [], []) (List.range bs) =
        .ok (s, cyls, moes) ∧
      cyls.length = bs ∧ moes.length = bs ∧
      ∀ j, j < bs →
        storeGet s (cyls.getD j 0) =
          paint_uniform_color cylinderBase (colors.getD j default) ∧
        storeGet s (moes.getD j 0) =
          paint_uniform_color moebiusBase (colors.getD j default)) ∧
    (∀ (s : Store) (cyls moes : List ℕ) (i : ℕ) (st2 : Store × List ℕ × List ℕ),
      cyls.length = i → moes.length = i → i < colors.length →
      (∀ j, j < i → cyls.getD j 0 < s.length ∧ moes.getD j 0 < s.length) →
      batchStep cylinderBase moebiusBase colors (s, cyls, moes) i = .ok st2 →
      ∀ j, j < i →
        storeGet st2.1 (cyls.getD j 0) = storeGet s (cyls.getD j 0) ∧
        storeGet st2.1 (moes.getD j 0) = storeGet s (moes.getD j 0)) := by
  constructor
  · obtain ⟨s2, cyls2, moes2, hgo, hl1, hl2, -, -, -, -, hcontent⟩ :=
      batchGo_ok cylinderBase moebiusBase colors bs 0 [] [] [] rfl rfl (by omega)
        (fun j hj => absurd hj (by omega))
    refine ⟨s2, cyls2, moes2, ?_, by omega, by omega, fun j hj => ?_⟩
    · rw [List.range_eq_range']
      exact hgo
    · exact hcontent j (by omega) (by omega)
  · intro s cyls moes i st2 hcy hmo hi hv hstep j hj
    obtain ⟨cb, hcb⟩ : ∃ cb, colors.get? i = some cb := by
      rw [List.get?_eq_getElem?]
      exact ⟨colors[i], List.getElem?_eq_getElem hi⟩
    rw [batchStep_ok cylinderBase moebiusBase colors s cyls moes i cb hcy hmo hcb] at hstep
    have hst : st2 = (s ++ [paint_uniform_color cylinderBase cb,
        paint_uniform_color moebiusBase cb], cyls ++ [s.length], moes ++ [s.length + 1]) :=
      (Except.ok.inj hstep).symm
    rw [hst]
    exact ⟨storeGet_append_left s _ _ (hv j hj).1, storeGet_append_left s _ _ (hv j hj).2⟩

/-- Witness for C8: two instances from a two-color palette; both parts of the
isolation statement at a concrete batch. -/
theorem batch_paint_isolation_witness :
    (∃ s cyls moes,
      batchGo testMesh testMesh [(1, 0, 0), (0, 1, 0)] ([], [], []) (List.range 2) =
        .ok (s, cyls, moes) ∧
      cyls.length = 2 ∧ moes.length = 2 ∧
      ∀ j, j < 2 →
        storeGet s (cyls.getD j 0) =
          paint_uniform_color testMesh ([(1, 0, 0), (0, 1, 0)].getD j default) ∧
        storeGet s (moes.getD j 0) =
          paint_uniform_color testMesh ([(1, 0, 0), (0, 1, 0)].getD j default)) ∧
    (∀ (s : Store) (cyls moes : List ℕ) (i : ℕ) (st2 : Store × List ℕ × List ℕ),
      cyls.length = i → moes.length = i → i < ([(1, 0, 0), (0, 1, 0)] : List V3).length →
      (∀ j, j < i → cyls.getD j 0 < s.length ∧ moes.getD j 0 < s.length) →
      batchStep testMesh testMesh [(1, 0, 0), (0, 1, 0)] (s, cyls, moes) i = .ok st2 →
      ∀ j, j < i →
        storeGet st2.1 (cyls.getD j 0) = storeGet s (cyls.getD j 0) ∧
        storeGet st2.1 (moes.getD j 0) = storeGet s (moes.getD j 0)) :=
  batch_paint_isolation testMesh testMesh [(1, 0, 0), (0, 1, 0)] 2 (by decide)

end Demo
